import Mathlib

/-!
Verification of the deterministic evidence engine of the xungu (训诂)
gloss-classification repository: the glossing-formula pattern recognizer
(`src/tools/pattern_tool.py`), the phonological-closeness comparator
(`src/tools/phonology_tool.py`), the byte-offset corpus index
(`src/data/dyhdc_index_builder.py`, `src/tools/textual_tool.py`), the
result parser (`src/agent/xungu_agent.py`) and the evidence-aggregation
cascade (spec §4.4; its implementation, `src/agent/prompts.py`, is imported
by the agent but absent from the sources).

Sentences and extracted characters are modelled as `List Char`.  Python
regular expressions are modelled by a small backtracking engine specialised
to the constructs the rule table actually uses (all quantifiers in the
table apply to single-character classes).  All of the table's patterns are
anchored with `^`, so Python's `re.search` coincides with matching at
position 0, which is what the engine implements.  `$` is modelled as
end-of-input: the tool strips the sentence before matching, so no trailing
newline can be present.
-/

namespace Xungu

/-- Python whitespace characters relevant to `\s`, `str.strip()` and
`str.isspace()`: ASCII whitespace plus the no-break and ideographic
spaces.  (Python's sets are larger but agree with this one on every
character that occurs in the rule table and in the corpus lines.) -/
def pySpace (c : Char) : Bool :=
  c == ' ' || c == '\t' || c == '\n' || c == '\r' ||
  c == Char.ofNat 11 || c == Char.ofNat 12 ||
  c == Char.ofNat 0xa0 || c == Char.ofNat 0x3000

/-- Python `str.strip()`: remove whitespace from both ends. -/
def pyStrip (s : List Char) : List Char :=
  ((s.dropWhile pySpace).reverse.dropWhile pySpace).reverse

/-- `.` in a Python pattern (no DOTALL): any character except newline. -/
def anyCh (c : Char) : Bool := c != '\n'

/-- The character class `[，,]`. -/
def cnComma (c : Char) : Bool := c == '，' || c == ','

/-- The character class `[、,，]`. -/
def cnComma3 (c : Char) : Bool := c == '、' || c == ',' || c == '，'

/-- The character class `[。？]`. -/
def endPunct (c : Char) : Bool := c == '。' || c == '？'

/-- The character class `[也。？]`. -/
def yeEndPunct (c : Char) : Bool := c == '也' || c == '。' || c == '？'

/-- The character class `[与与跟]` (the duplicated 与 collapses). -/
def yuGen (c : Char) : Bool := c == '与' || c == '跟'

/-- The negated character class `[^，,]`. -/
def notComma (c : Char) : Bool := !(c == '，' || c == ',')

/-- One token of a compiled pattern.  Every quantifier in the rule table
applies to a single-character class, so this token language covers the
whole table. -/
inductive Tok where
  /-- a literal character -/
  | lit (c : Char)
  /-- a single character drawn from a class -/
  | cls (p : Char → Bool)
  /-- `p?` — greedy optional single character -/
  | opt (p : Char → Bool)
  /-- `p*` — greedy star over a single-character class -/
  | star (p : Char → Bool)
  /-- `(p+?)` — lazy plus, capturing -/
  | plusLazy (p : Char → Bool)
  /-- `(p+)` — greedy plus, capturing -/
  | plusGreedy (p : Char → Bool)

/-- Try `f k, f (k-1), …, f 0`, first success wins (greedy `*`:
longest first). -/
def tryDown (f : Nat → Option α) : Nat → Option α
  | 0 => f 0
  | k + 1 => f (k + 1) <|> tryDown f k

/-- Try `f k, f (k-1), …, f 1`, first success wins (greedy `+`). -/
def tryDown1 (f : Nat → Option α) : Nat → Option α
  | 0 => none
  | k + 1 => f (k + 1) <|> tryDown1 f k

/-- Try `f lo, f (lo+1), …` for `fuel` candidates, first success wins
(lazy `+?`: shortest first). -/
def tryUp (f : Nat → Option α) : Nat → Nat → Option α
  | _, 0 => none
  | lo, fuel + 1 => f lo <|> tryUp f (lo + 1) fuel

/-- Backtracking matcher.  `anch` records whether the pattern ends in `$`
(modelled as end of input).  Returns the list of captured groups in
order.  `fuel` only needs to exceed the token-list length; it makes the
recursion structural so that concrete runs reduce in the kernel. -/
def runToks : Nat → Bool → List Tok → List Char → List (List Char) →
    Option (List (List Char))
  | 0, _, _, _, _ => none
  | _ + 1, anch, [], s, caps =>
      if anch then (if s.isEmpty then some caps else none) else some caps
  | fuel + 1, anch, Tok.lit c :: ts, s, caps =>
      match s with
      | [] => none
      | x :: xs => if x == c then runToks fuel anch ts xs caps else none
  | fuel + 1, anch, Tok.cls p :: ts, s, caps =>
      match s with
      | [] => none
      | x :: xs => if p x then runToks fuel anch ts xs caps else none
  | fuel + 1, anch, Tok.opt p :: ts, s, caps =>
      (match s with
       | x :: xs => if p x then runToks fuel anch ts xs caps else none
       | [] => none) <|> runToks fuel anch ts s caps
  | fuel + 1, anch, Tok.star p :: ts, s, caps =>
      tryDown (fun k => runToks fuel anch ts (s.drop k) caps)
        (s.takeWhile p).length
  | fuel + 1, anch, Tok.plusLazy p :: ts, s, caps =>
      tryUp (fun k => runToks fuel anch ts (s.drop k) (caps ++ [s.take k]))
        1 (s.takeWhile p).length
  | fuel + 1, anch, Tok.plusGreedy p :: ts, s, caps =>
      tryDown1 (fun k => runToks fuel anch ts (s.drop k) (caps ++ [s.take k]))
        (s.takeWhile p).length

/-- A compiled pattern: token list plus whether it is `$`-anchored. -/
structure ReP where
  toks : List Tok
  anch : Bool

/-- `re.search` of one of the table's patterns.  All patterns start with
`^`, so searching is matching at position 0. -/
def reSearch (p : ReP) (s : List Char) : Option (List (List Char)) :=
  runToks (p.toks.length + 1) p.anch p.toks s []

/-- One entry of `XUNSHI_PATTERNS`: compiled regex plus metadata. -/
structure XRule where
  regex : ReP
  rtype : String
  confidence : String
  direct_judge : Bool
  source : String

/-- `^(.+?)[，,]\s*LIT…\s*(.+?)[。？]?$` — the shape shared by most rules,
with `mid` the literal term between the two captures. -/
def stdToks (mid : List Char) : List Tok :=
  [Tok.plusLazy anyCh, Tok.cls cnComma, Tok.star pySpace] ++
  mid.map Tok.lit ++
  [Tok.star pySpace, Tok.plusLazy anyCh, Tok.opt endPunct]

/-- Helper: build an `XRule` from token list, `$`-anchoring flag,
implied type, confidence, direct-judge flag and source note. -/
def mkRule (toks : List Tok) (anch : Bool) (rtype confidence : String)
    (dj : Bool) (source : String) : XRule :=
  { regex := ⟨toks, anch⟩, rtype := rtype, confidence := confidence,
    direct_judge := dj, source := source }

/-- The rule table `XUNSHI_PATTERNS` of `pattern_tool.py`, in source
(dict) order.  Each regex is transcribed token by token; `mkRule`
arguments are tokens, `$`-anchored?, implied type, confidence,
direct-judge, source note. -/
def XUNSHI_PATTERNS : List (String × XRule) := [
  ("读为", mkRule (stdToks ['读', '为']) true "假借" "极高" true
    "郑玄《礼》注，破字/改读术语"),
  ("读曰", mkRule (stdToks ['读', '曰']) true "假借" "极高" true
    "郑玄《礼》注，假借铁证"),
  ("读当为", mkRule [Tok.plusLazy anyCh, Tok.cls cnComma,
    Tok.star pySpace, Tok.opt (fun c => c == '读'), Tok.lit '当',
    Tok.lit '为', Tok.star pySpace, Tok.plusLazy anyCh,
    Tok.opt endPunct] true "假借" "高" true "「读为」舒缓形式"),
  ("当为", mkRule (stdToks ['当', '为']) true "假借" "高" true "训诂通用"),
  ("当作", mkRule (stdToks ['当', '作']) true "假借" "高" true
    "训诂通用，指明正字"),
  ("通", mkRule [Tok.plusLazy anyCh, Tok.cls yuGen, Tok.plusLazy anyCh,
    Tok.lit '通'] true "假借" "高" true "段玉裁等，通用字"),
  ("古字通", mkRule [Tok.plusLazy anyCh, Tok.cls cnComma3,
    Tok.star pySpace, Tok.plusLazy anyCh, Tok.opt cnComma,
    Tok.star pySpace, Tok.lit '古', Tok.lit '字', Tok.lit '通',
    Tok.opt endPunct] true "假借" "高" true "何晏《论语集解》"),
  ("假借字", mkRule [Tok.plusLazy anyCh, Tok.cls cnComma,
    Tok.star pySpace, Tok.star anyCh, Tok.lit '假', Tok.lit '借',
    Tok.lit '字', Tok.star anyCh] false "假借" "极高" true "直接标注"),
  ("借为", mkRule (stdToks ['借', '为']) true "假借" "极高" true "训诂通用"),
  ("读若", mkRule (stdToks ['读', '若']) true "可能假借" "中" false
    "《说文》标音，有时暗示假借，有时仅标音"),
  ("读如", mkRule (stdToks ['读', '如']) true "可能假借" "中" false
    "《周礼》注等"),
  ("或作", mkRule (stdToks ['或', '作']) true "可能假借" "中" false
    "异体/通假"),
  ("声近", mkRule [Tok.plusLazy anyCh, Tok.cls cnComma,
    Tok.star pySpace, Tok.star anyCh, Tok.lit '声', Tok.lit '近',
    Tok.star anyCh] false "可能假借" "中" false "音近通假"),
  ("之言", mkRule [Tok.plusLazy anyCh, Tok.lit '之',
    Tok.opt (fun c => c == '为'), Tok.lit '言', Tok.star pySpace,
    Tok.plusLazy anyCh, Tok.opt (fun c => c == '也'),
    Tok.opt endPunct] true "以声通义" "高" false
    "《尚书大传》等，揭示语源（音近义通）"),
  ("犹", mkRule [Tok.plusLazy anyCh, Tok.cls cnComma, Tok.star pySpace,
    Tok.lit '犹', Tok.star pySpace, Tok.plusLazy anyCh,
    Tok.opt yeEndPunct] true "语义解释" "高" true "比况训法"),
  ("犹言", mkRule (stdToks ['犹', '言']) true "语义解释" "高" true
    "比况训法"),
  ("谓之", mkRule (stdToks ['谓', '之']) true "语义解释" "高" true
    "命名式训释"),
  ("之貌", mkRule [Tok.plusLazy anyCh, Tok.cls cnComma,
    Tok.star pySpace, Tok.plusLazy anyCh, Tok.lit '之', Tok.lit '貌',
    Tok.opt endPunct] true "语义解释" "极高" true "形容词训法"),
  ("貌", mkRule [Tok.plusLazy anyCh, Tok.cls cnComma, Tok.star pySpace,
    Tok.plusLazy anyCh, Tok.lit '貌', Tok.opt endPunct] true
    "语义解释" "高" true "形容词训法"),
  ("所以", mkRule [Tok.plusLazy anyCh, Tok.cls cnComma, Tok.star pySpace,
    Tok.lit '所', Tok.lit '以', Tok.plusGreedy anyCh,
    Tok.opt (fun c => c == '也'), Tok.opt endPunct] true
    "语义解释" "高" true "释用处训法"),
  ("者也", mkRule [Tok.plusLazy anyCh, Tok.lit '者', Tok.opt cnComma,
    Tok.star pySpace, Tok.plusLazy anyCh, Tok.lit '也',
    Tok.opt endPunct] true "不确定" "低" false "基本训式，需综合判断"),
  ("即", mkRule [Tok.plusLazy anyCh, Tok.cls cnComma, Tok.star pySpace,
    Tok.lit '即', Tok.star pySpace, Tok.plusLazy anyCh,
    Tok.opt endPunct] true "不确定" "低" false "可能是假借也可能是语义"),
  ("A也", mkRule [Tok.plusLazy notComma, Tok.cls cnComma,
    Tok.star pySpace, Tok.plusLazy notComma, Tok.lit '也',
    Tok.opt endPunct] true "不确定" "低" false "最基本训式A，B也")]

/-- The hand-ordered priority list of `PatternTool.identify`. -/
def priority_order : List String :=
  ["读为", "读曰", "读当为", "当为", "当作", "通", "古字通",
   "假借字", "借为",
   "之言", "谓之", "之貌", "貌", "所以", "犹", "犹言",
   "读若", "读如", "或作", "声近",
   "者也", "即", "A也"]

/-- `PatternResult` of `pattern_tool.py`. -/
structure PatternResult where
  pattern_name : String
  char_a : List Char
  char_b : List Char
  implied_type : String
  confidence : String
  can_direct_judge : Bool
  source : String
deriving DecidableEq

/-- The punctuation characters removed by `PatternTool._clean_char`
(the Python literal is the concatenation of two adjacent string
literals, so the set contains a plain apostrophe and no double quote). -/
def cleanPunct (c : Char) : Bool :=
  c == '。' || c == '，' || c == '、' || c == '；' || c == '：' ||
  c == Char.ofNat 39 || c == '「' || c == '」' || c == '『' ||
  c == '』' || c == '【' || c == '】' || c == '《' || c == '》' ||
  c == '（' || c == '）' || c == '(' || c == ')'

/-- `PatternTool._clean_char`: drop punctuation, then strip. -/
def cleanChar (t : List Char) : List Char :=
  pyStrip (t.filter (fun c => !cleanPunct c))

/-- `PatternTool._extract_first_char`: the first CJK ideograph, as a
(possibly empty) one-character string. -/
def extractFirstChar (s : List Char) : List Char :=
  match s.find? (fun c => 0x4e00 ≤ c.toNat && c.toNat ≤ 0x9fff) with
  | some c => [c]
  | none => []

/-- The secondary `"^([^，,]+)[，,]\s*(.+?)也$"` search used by the `A也`
special case (note the greedy first group and the absence of the
optional end punctuation). -/
def aYeSecondary : ReP :=
  ⟨[Tok.plusGreedy notComma, Tok.cls cnComma, Tok.star pySpace,
    Tok.plusLazy anyCh, Tok.lit '也'], true⟩

/-- The degenerate result returned when no rule matches. -/
def noMatchResult (s : List Char) : PatternResult :=
  { pattern_name := "未知", char_a := extractFirstChar s, char_b := [],
    implied_type := "不确定", confidence := "低",
    can_direct_judge := false, source := "未识别的格式" }

/-- The loop body of `PatternTool.identify`: walk the priority list,
return the result of the first rule whose regex search succeeds,
applying `_clean_char` to both captures and the `A也` special case. -/
def identifyLoop (s : List Char) : List String → PatternResult
  | [] => noMatchResult s
  | n :: rest =>
    match XUNSHI_PATTERNS.lookup n with
    | none => identifyLoop s rest
    | some cfg =>
      match reSearch cfg.regex s with
      | none => identifyLoop s rest
      | some caps =>
        let a0 := cleanChar (caps.getD 0 [])
        let b0 := cleanChar (caps.getD 1 [])
        let ab :=
          if n == "A也" then
            let a1 := if a0.isEmpty then extractFirstChar s else a0
            if b0.isEmpty then
              match reSearch aYeSecondary s with
              | some caps2 => (pyStrip (caps2.getD 0 []),
                               pyStrip (caps2.getD 1 []))
              | none => (a1, b0)
            else (a1, b0)
          else (a0, b0)
        { pattern_name := n, char_a := ab.1, char_b := ab.2,
          implied_type := cfg.rtype, confidence := cfg.confidence,
          can_direct_judge := cfg.direct_judge, source := cfg.source }

/-- `PatternTool.identify` after the optional traditional→simplified
conversion (the OpenCC dependency; when it is not installed the tool
runs with `cc = None` and the sentence is used as-is, which is the
path modelled here — every claim about `identify` refers to the
script-normalized sentence). -/
def identifyCore (sentence : List Char) : PatternResult :=
  identifyLoop (pyStrip sentence) priority_order

/-- Whether the rule named `n` matches the (normalized, stripped)
sentence `s`: its regex search succeeds.  Names absent from the table
never match (mirrors the `if name not in self.patterns: continue`). -/
def matchesName (n : String) (s : List Char) : Bool :=
  match XUNSHI_PATTERNS.lookup n with
  | none => false
  | some cfg => (reSearch cfg.regex s).isSome

/-! ### Phonology comparator (`src/tools/phonology_tool.py`)

One record of `phonology_unified.json` is modelled field by field: the
tool reads `data.get("潘悟云", {}).get("声母", "未知")` and so on, so a
missing source dictionary and a missing key both collapse to the same
`"未知"` default, captured by `Option String` fields. -/

/-- One character's record in the unified phonology file. -/
structure RawPhon where
  pan_shengmu : Option String
  pan_yunbu : Option String
  pan_recon : Option String
  bs_recon : Option String
deriving DecidableEq

/-- `PhonologyInfo` of `phonology_tool.py`. -/
structure PhonologyInfo where
  char : String
  char_trad : String
  shengmu : String
  yunbu : String
  pan_reconstruction : String
  bs_reconstruction : String
deriving DecidableEq

/-- The phonology tool after load: the in-memory index plus the optional
simplified→traditional converter (`OpenCC('s2t')` when installed, `None`
otherwise; the converter is an external library and is kept abstract). -/
structure PhonologyToolM where
  index : List (String × RawPhon)
  conv : Option (String → String)

/-- `PhonologyTool.query`: convert, look up the traditional form, fall
back to the simplified form, and default every missing field. -/
def PhonologyToolM.query (t : PhonologyToolM) (char : String) :
    PhonologyInfo :=
  let char_trad := match t.conv with | some f => f char | none => char
  let found : Option (String × RawPhon) :=
    match t.index.lookup char_trad with
    | some d => some (char_trad, d)
    | none =>
      match t.index.lookup char with
      | some d => some (char, d)
      | none => none
  match found with
  | some (ct, d) =>
    { char := char, char_trad := ct,
      shengmu := d.pan_shengmu.getD "未知",
      yunbu := d.pan_yunbu.getD "未知",
      pan_reconstruction := d.pan_recon.getD "未知",
      bs_reconstruction := d.bs_recon.getD "未知" }
  | none =>
    { char := char, char_trad := char_trad, shengmu := "未收录",
      yunbu := "未收录", pan_reconstruction := "未收录",
      bs_reconstruction := "未收录" }

/-- `PhonologyTool._clean_ipa`: `re.sub(r'[\*\[\]\(\)\<\>\-\s]', '', ipa)`
after the empty/unknown short-circuit. -/
def cleanIpa (ipa : String) : String :=
  if ipa = "" || ipa = "未知" then ""
  else String.mk (ipa.data.filter (fun c =>
    !(c == '*' || c == '[' || c == ']' || c == '(' || c == ')' ||
      c == '<' || c == '>' || c == '-' || pySpace c)))

/-! `difflib.SequenceMatcher.ratio` (no junk; autojunk applies only to
sequences of length ≥ 200, which never occurs for cleaned
reconstructions, and is therefore a no-op).  `lcsRows` computes
`L[i][j]` = length of the matching run starting at `a[i]`, `b[j]`;
`bestScan` picks the maximal run, breaking ties towards the smallest
`i`, then `j`, exactly as `find_longest_match` does; `matchTotal`
recursively sums the matched blocks. -/

/-- One row of the run-length table: `row_i[j] = (a_i = b_j) ? row_{i+1}[j+1]+1 : 0`. -/
def lcsRow (ai : Char) : List Char → List Nat → List Nat
  | [], _ => [0]
  | c :: cs, prev =>
    let ps := prev.tail
    (if ai == c then ps.headD 0 + 1 else 0) :: lcsRow ai cs ps

/-- All rows of the run-length table, top row first. -/
def lcsRows : List Char → List Char → List (List Nat)
  | [], b => [List.replicate (b.length + 1) 0]
  | ai :: arest, b =>
    let rest := lcsRows arest b
    lcsRow ai b (rest.headD []) :: rest

/-- Scan the table for the largest entry, first (smallest `i`, then `j`)
among equals: `(size, i, j)`. -/
def bestScan (rows : List (List Nat)) : Nat × Nat × Nat :=
  let cells := (rows.enum.map (fun p =>
    p.2.enum.map (fun q => (q.2, p.1, q.1)))).flatten
  cells.foldl (fun best c => if best.1 < c.1 then c else best) (0, 0, 0)

/-- Total size of all matching blocks (the `M` of `ratio = 2M/T`). -/
def matchTotal : Nat → List Char → List Char → Nat
  | 0, _, _ => 0
  | fuel + 1, a, b =>
    let best := bestScan (lcsRows a b)
    if best.1 == 0 then 0
    else
      best.1 + matchTotal fuel (a.take best.2.1) (b.take best.2.2) +
        matchTotal fuel (a.drop (best.2.1 + best.1))
          (b.drop (best.2.2 + best.1))

/-- `PhonologyTool._calculate_similarity` over the rationals
(`Rat.divInt` is exact division; the float the Python code computes is
correctly rounded and the operands are far too small for rounding to
flip the `≥ 0.75` comparison below). -/
def calcSimilarity (s1 s2 : String) : ℚ :=
  if s1 = "" || s2 = "" then 0
  else if s1 = s2 then 1
  else Rat.divInt
    (2 * (matchTotal (s1.data.length + s2.data.length + 1)
      s1.data s2.data : Int))
    ((s1.data.length : Int) + (s2.data.length : Int))

/-- The `0.75` similarity cutoff of `is_phonetically_close`. -/
def simCutoff : ℚ := Rat.divInt 3 4

/-- The data-missing guard of `is_phonetically_close`. -/
def missingCheck (p1 p2 : PhonologyInfo) : Bool :=
  p1.yunbu == "未收录" || p2.yunbu == "未收录"

/-- `same_yunbu`: identical rhyme class, not the `"未知"` sentinel. -/
def sameYunbu (p1 p2 : PhonologyInfo) : Bool :=
  p1.yunbu == p2.yunbu && p1.yunbu != "未知"

/-- `same_shengmu`: identical initial class, not the `"未知"` sentinel. -/
def sameShengmu (p1 p2 : PhonologyInfo) : Bool :=
  p1.shengmu == p2.shengmu && p1.shengmu != "未知"

/-- The reconstruction fed to the similarity ratio: Baxter–Sagart if
present, else Pan, then cleaned. -/
def bestRecon (p : PhonologyInfo) : String :=
  cleanIpa (if p.bs_reconstruction != "未知" then p.bs_reconstruction
    else p.pan_reconstruction)

/-- The similarity score of the two characters' best reconstructions. -/
def simScore (p1 p2 : PhonologyInfo) : ℚ :=
  calcSimilarity (bestRecon p1) (bestRecon p2)

/-- The result dictionary of `is_phonetically_close`.  On the
data-missing path the Python dictionary has no `same_yunbu` /
`same_shengmu` keys, hence the `Option Bool`.  (The `char1_info` /
`char2_info` entries are display projections of the two
`PhonologyInfo` values and are not modelled separately.) -/
structure CloseResult where
  is_close : Bool
  same_yunbu : Option Bool
  same_shengmu : Option Bool
  analysis : String
deriving DecidableEq

/-- The `analysis` string assembled on the normal path. -/
def mkAnalysis (p1 p2 : PhonologyInfo) : String :=
  let sy := sameYunbu p1 p2
  let sim := simScore p1 p2
  let isClose := sy || decide (simCutoff ≤ sim)
  let reasons : List String :=
    (if sy then ["✅ 【叠韵】(均为" ++ p1.yunbu ++ "部)"] else []) ++
    (if !sy && decide (simCutoff ≤ sim) then
      ["✅ 【音极近】(拟音相似度" ++ toString (Rat.floor (sim * 100)) ++ "%)"]
     else []) ++
    (if sameShengmu p1 p2 then ["【双声】(" ++ p1.shengmu ++ "母)"] else []) ++
    (if !isClose then ["❌ 音韵差异较大"] else [])
  String.intercalate "；" reasons ++ "；参考: " ++ p1.char ++ "[" ++
    bestRecon p1 ++ "] vs " ++ p2.char ++ "[" ++ bestRecon p2 ++ "]"

/-- `PhonologyTool.is_phonetically_close`. -/
def isPhoneticallyClose (t : PhonologyToolM) (char1 char2 : String) :
    CloseResult :=
  let p1 := t.query char1
  let p2 := t.query char2
  if missingCheck p1 p2 then
    { is_close := false, same_yunbu := none, same_shengmu := none,
      analysis := "数据缺失：未收录 '" ++ char1 ++ "' 或 '" ++ char2 ++ "'" }
  else
    { is_close := sameYunbu p1 p2 || decide (simCutoff ≤ simScore p1 p2),
      same_yunbu := some (sameYunbu p1 p2),
      same_shengmu := some (sameShengmu p1 p2),
      analysis := mkAnalysis p1 p2 }

/-- The `_get_mock_data` table the tool falls back to when the unified
phonology file is absent (used as the concrete witness index). -/
def mockTool : PhonologyToolM :=
  { index := [
      ("崇", { pan_shengmu := some "崇", pan_yunbu := some "東",
               pan_recon := some "*dzruŋ", bs_recon := some "*[dz]<r>uŋ" }),
      ("終", { pan_shengmu := some "章", pan_yunbu := some "東",
               pan_recon := some "*tjuŋ", bs_recon := some "*tuŋ" })],
    conv := none }

/-- A tool with an empty index (the state after a failed load). -/
def emptyPhonTool : PhonologyToolM := { index := [], conv := none }

/-! ### Corpus offset index (`src/data/dyhdc_index_builder.py`)

The corpus file is modelled as a flat list of bytes.  `build_index`
reads it through Python's *text mode* (`open(path, 'r')`), whose
universal-newline translation turns `\r\n` and lone `\r` into `\n`
before the code measures `len(line.encode('utf-8'))`; `query` re-reads
through *binary mode* (`open(path, 'rb')`).  Both behaviours are
modelled byte-precisely.  UTF-8 decoding followed by re-encoding is the
identity on the byte sequences between newline translations, so the
translated line's byte length is its list length (a file that is not
valid UTF-8 makes Python's text-mode read raise and no index is built;
that path is out of scope here). -/

/-- ASCII whitespace bytes (`str.strip` on the line content; the corpus
lines are framed in ASCII, where Python's larger Unicode whitespace set
coincides with this one). -/
def asciiSpaceByte (b : Nat) : Bool :=
  b == 9 || b == 10 || b == 11 || b == 12 || b == 13 || b == 32

/-- Python `str.strip()` at the byte level. -/
def pyStripBytes (bs : List Nat) : List Nat :=
  ((bs.dropWhile asciiSpaceByte).reverse.dropWhile asciiSpaceByte).reverse

/-- One `readline()` step in universal-newlines text mode: returns
(raw bytes consumed, translated line, rest of file).  `\r\n`, `\r` and
`\n` all terminate a line and are translated to `\n`. -/
def splitSeg : List Nat → List Nat × List Nat × List Nat
  | [] => ([], [], [])
  | b :: rest =>
    if b = 13 then
      match rest with
      | b2 :: rest2 =>
        if b2 = 10 then ([13, 10], [10], rest2)
        else ([13], [10], b2 :: rest2)
      | [] => ([13], [10], [])
    else if b = 10 then ([10], [10], rest)
    else
      let s := splitSeg rest
      (b :: s.1, b :: s.2.1, s.2.2)

/-- Repeated `readline()` until EOF (fuel-structural; one byte is
consumed per line, so `file.length` fuel suffices). -/
def pySegmentsF : Nat → List Nat → List (List Nat × List Nat)
  | 0, _ => []
  | _, [] => []
  | fuel + 1, f =>
    let s := splitSeg f
    (s.1, s.2.1) :: pySegmentsF fuel s.2.2

/-- All lines of the file: (raw bytes, translated text-mode line). -/
def pySegments (f : List Nat) : List (List Nat × List Nat) :=
  pySegmentsF f.length f

/-- UTF-8 encoding of one character. -/
def utf8Bytes (c : Char) : List Nat :=
  let n := c.toNat
  if n < 0x80 then [n]
  else if n < 0x800 then [0xC0 + n / 64, 0x80 + n % 64]
  else if n < 0x10000 then
    [0xE0 + n / 4096, 0x80 + (n / 64) % 64, 0x80 + n % 64]
  else
    [0xF0 + n / 262144, 0x80 + (n / 4096) % 64, 0x80 + (n / 64) % 64,
     0x80 + n % 64]

/-- UTF-8 encoding of a string. -/
def strBytes (s : String) : List Nat :=
  (s.data.map utf8Bytes).flatten

/-- Strict UTF-8 decoding (fuel-structural; rejects continuation-byte
misuse, overlong forms, surrogates and out-of-range code points, as
Python's decoder does). -/
def utf8Decode : Nat → List Nat → Option (List Char)
  | _, [] => some []
  | 0, _ => none
  | fuel + 1, b :: rest =>
    if b < 0x80 then
      (utf8Decode fuel rest).map (fun cs => Char.ofNat b :: cs)
    else if b < 0xC2 then none
    else if b < 0xE0 then
      match rest with
      | b2 :: rest2 =>
        if 0x80 ≤ b2 && b2 < 0xC0 then
          (utf8Decode fuel rest2).map
            (fun cs => Char.ofNat ((b - 0xC0) * 64 + (b2 - 0x80)) :: cs)
        else none
      | _ => none
    else if b < 0xF0 then
      match rest with
      | b2 :: b3 :: rest3 =>
        if 0x80 ≤ b2 && b2 < 0xC0 && 0x80 ≤ b3 && b3 < 0xC0 then
          let n := (b - 0xE0) * 4096 + (b2 - 0x80) * 64 + (b3 - 0x80)
          if 0x800 ≤ n && !(0xD800 ≤ n && n < 0xE000) then
            (utf8Decode fuel rest3).map (fun cs => Char.ofNat n :: cs)
          else none
        else none
      | _ => none
    else if b < 0xF5 then
      match rest with
      | b2 :: b3 :: b4 :: rest4 =>
        if 0x80 ≤ b2 && b2 < 0xC0 && 0x80 ≤ b3 && b3 < 0xC0 &&
            0x80 ≤ b4 && b4 < 0xC0 then
          let n := (b - 0xF0) * 262144 + (b2 - 0x80) * 4096 +
            (b3 - 0x80) * 64 + (b4 - 0x80)
          if 0x10000 ≤ n && n < 0x110000 then
            (utf8Decode fuel rest4).map (fun cs => Char.ofNat n :: cs)
          else none
        else none
      | _ => none
    else none

/-- `json.loads(line.strip())` followed by the tool's headword
extraction (`entry.get("headword", "") or entry.get("hw", "")`),
restricted to the flat one-field objects `{"headword": "…"}` used in
the concrete corpora below — the shape every line of those corpora
(and every mangled re-read of them) is tested against; on anything
outside this shape it returns `none`, as `json.loads` raises there
too.  The round-trip theorem itself is stated for an arbitrary parser,
so nothing general depends on this restriction. -/
def miniParse (bs : List Nat) : Option String :=
  let s := pyStripBytes bs
  let pre := strBytes "\x7b\"headword\": \""
  if pre.isPrefixOf s then
    let rest := s.drop pre.length
    let content := rest.takeWhile (fun b => b != 34)
    let tail := rest.drop content.length
    if tail = [34, 125] && content.all (fun b => 0x20 ≤ b && b != 92) then
      (utf8Decode (content.length + 1) content).map String.mk
    else none
  else none

/-- One record of the offset index: `{headword, offset, length}`. -/
structure IndexRec where
  headword : String
  offset : Nat
  length : Nat
deriving DecidableEq

/-- Append a record to the first-character bucket, preserving Python
dict insertion order. -/
def bucketAdd (idx : List (Char × List IndexRec)) (c : Char)
    (r : IndexRec) : List (Char × List IndexRec) :=
  match idx with
  | [] => [(c, [r])]
  | (c', rs) :: rest =>
    if c' = c then (c', rs ++ [r]) :: rest
    else (c', rs) :: bucketAdd rest c r

/-- One line's index update in `DYHDCIndexBuilder.build_index`: record
`{headword, offset, len(line.encode('utf-8'))}` under the headword's
first character, unless the line fails to parse, has no headword, or
the headword starts with `#` (a metadata line). -/
def buildStep (parse : List Nat → Option String) (line : List Nat)
    (offset : Nat) (idx : List (Char × List IndexRec)) :
    List (Char × List IndexRec) :=
  match parse line with
  | some hw =>
    match hw.data with
    | [] => idx
    | c :: _ =>
      if c = '#' then idx
      else bucketAdd idx c ⟨hw, offset, line.length⟩
  | none => idx

/-- The build loop of `DYHDCIndexBuilder.build_index`: apply
`buildStep` to each text-mode line; the byte cursor advances by the
translated line's length whether or not the line was recorded. -/
def buildGo (parse : List Nat → Option String) :
    List (List Nat × List Nat) → Nat → List (Char × List IndexRec) →
    List (Char × List IndexRec)
  | [], _, idx => idx
  | (_, line) :: rest, offset, idx =>
    buildGo parse rest (offset + line.length)
      (buildStep parse line offset idx)

/-- `DYHDCIndexBuilder.build_index` over a byte file. -/
def buildIndex (parse : List Nat → Option String) (file : List Nat) :
    List (Char × List IndexRec) :=
  buildGo parse (pySegments file) 0 []

/-- Binary-mode `seek(offset)` + `read(length)`. -/
def readAt (file : List Nat) (off len : Nat) : List Nat :=
  (file.drop off).take len

/-- The serve loop of `DYHDCIndexLoader.query` over a loaded index:
for each entry under `c` whose headword is a single character, seek,
read exactly `length` bytes, and keep the read bytes when they decode
and parse (failures are skipped individually).  The returned record is
represented by the bytes it was parsed from. -/
def loaderQuery (parse : List Nat → Option String) (file : List Nat)
    (index : List (Char × List IndexRec)) (c : Char) : List (List Nat) :=
  match index.lookup c with
  | none => []
  | some entries =>
    entries.filterMap (fun r =>
      if r.headword.data.length == 1 then
        let bs := readAt file r.offset r.length
        match parse bs with
        | some _ => some bs
        | none => none
      else none)

/-- `DYHDCIndexLoader.query` including lazy `load_index`: when the
persisted index file is missing, `load_index` returns `False`, the
in-memory index stays empty, and the query falls through to the
`char not in self.index` branch. -/
def dyhdcLoaderQuery (parse : List Nat → Option String) (file : List Nat)
    (indexFile : Option (List (Char × List IndexRec))) (c : Char) :
    List (List Nat) :=
  match indexFile with
  | none => []
  | some idx => loaderQuery parse file idx c

/-- All records of all buckets. -/
def allRecs (idx : List (Char × List IndexRec)) : List IndexRec :=
  (idx.map Prod.snd).flatten

/-- A two-line LF corpus (the happy path). -/
def lfFile : List Nat :=
  strBytes "\x7b\"headword\": \"山\"\x7d" ++ [10] ++
  strBytes "\x7b\"headword\": \"水\"\x7d" ++ [10]

/-- A three-line CRLF corpus: text-mode reading shortens every measured
line by one byte, so recorded offsets drift one byte per line. -/
def crlfFile : List Nat :=
  strBytes "\x7b\"headword\": \"山\"\x7d" ++ [13, 10] ++
  strBytes "\x7b\"headword\": \"水\"\x7d" ++ [13, 10] ++
  strBytes "\x7b\"headword\": \"火\"\x7d" ++ [13, 10]

/-! ### Textual tool load (`src/tools/textual_tool.py`) -/

/-- The build-step hint appended to the missing-index error message. -/
def buildHintMsg : String :=
  "\n请先运行以下命令构建索引：\n  python -c \"from src.data.dyhdc_index_builder import build_dyhdc_index; build_dyhdc_index()\"\n或运行: python check_and_build_index.py"

/-- `TextualTool.load`, with the two file-system facts it branches on
(index file present?  `load_index()` succeeded?) passed explicitly;
`Except.error` models `raise`. -/
def textualLoad (indexFileExists : Bool) (indexLoadOk : Bool)
    (index_path jsonl_path : String) : Except String Unit :=
  if !indexFileExists then
    Except.error ("索引文件不存在: " ++ index_path ++ buildHintMsg)
  else if !indexLoadOk then
    Except.error ("索引加载失败。请检查：\n  1. 索引文件是否存在: " ++
      index_path ++ "\n  2. JSONL文件是否存在: " ++ jsonl_path ++
      "\n  3. 索引文件格式是否正确")
  else Except.ok ()

/-! ### Evidence aggregator (spec §4.4)

Modelled from the spec: the decision cascade lives in the agent's
prompt module (`src/agent/prompts.py`, imported by
`src/agent/xungu_agent.py` and `src/agent/langchain_agent.py`), which
is part of the repository but absent from the sources provided; the
definitions below follow §4.4 of the specification word for word.
Confidences are rationals; `qc n` is `n/100`. -/

/-- `n/100` as a rational (`Rat.divInt` keeps kernel reduction usable,
unlike field division). -/
def qc (n : Nat) : ℚ := Rat.divInt n 100

/-- Formula categories (spec §3 `PatternRule.impliedCategory`). -/
inductive Category where
  | phoneticLoan
  | semanticGloss
  | possiblePhoneticLoan
  | soundCarriesMeaning
  | uncertain
deriving DecidableEq

/-- The externally supplied semantic-relatedness signal. -/
inductive SemanticRel where
  | close
  | distant
  | other
deriving DecidableEq

/-- The externally supplied contextual-fit signal. -/
inductive ContextFit where
  | supportsPhoneticLoan
  | supportsSemanticGloss
  | other
deriving DecidableEq

/-- The formula signal (§4.1 output as consumed by §4.4). -/
structure FormulaSignal where
  implied : Category
  directJudge : Bool
deriving DecidableEq

/-- `EvidenceBundle` (spec §3): the five per-step signals. -/
structure EvidenceBundle where
  semantic : SemanticRel
  phonClose : Bool
  textualFound : Bool
  formula : FormulaSignal
  context : ContextFit
deriving DecidableEq

/-- `Verdict` (spec §3). -/
structure Verdict where
  classification : Category
  confidence : ℚ
  rationale : List String
deriving DecidableEq

/-- Cascade state: classification still unset (`none`) until a rule
fires. -/
structure AggState where
  cls : Option Category
  conf : ℚ
  rationale : List String

/-- Rule 2's guard condition. -/
def rule2Path (b : EvidenceBundle) : Bool :=
  b.semantic == SemanticRel.distant && b.phonClose

/-- Rule 3's guard condition. -/
def rule3Path (b : EvidenceBundle) : Bool :=
  b.semantic == SemanticRel.close && b.phonClose

/-- Whether rule 2 changes the state at all. -/
def rule2Fires (b : EvidenceBundle) : Bool :=
  rule2Path b &&
    (b.textualFound || b.context == ContextFit.supportsPhoneticLoan)

/-- Whether rule 3 changes the state at all. -/
def rule3Fires (b : EvidenceBundle) : Bool :=
  rule3Path b && (b.formula.implied == Category.soundCarriesMeaning ||
    b.context == ContextFit.supportsSemanticGloss)

/-- Spec §4.4 rule 1: direct formula marker. -/
def applyRule1 (b : EvidenceBundle) (st : AggState) : AggState :=
  if b.formula.directJudge then
    { cls := some b.formula.implied, conf := qc 90,
      rationale := st.rationale ++
        ["rule 1: formula direct marker, confidence 0.9"] }
  else st

/-- Spec §4.4 rule 2: semantically distant but phonologically close. -/
def applyRule2 (b : EvidenceBundle) (st : AggState) : AggState :=
  if rule2Path b then
    if b.textualFound then
      { cls := some Category.phoneticLoan, conf := max st.conf (qc 95),
        rationale := st.rationale ++
          ["rule 2: distant meaning, close sound, textual corroboration, confidence 0.95"] }
    else if b.context == ContextFit.supportsPhoneticLoan then
      { cls := some Category.phoneticLoan, conf := max st.conf (qc 85),
        rationale := st.rationale ++
          ["rule 2: distant meaning, close sound, context supports loan, confidence 0.85"] }
    else st
  else st

/-- Spec §4.4 rule 3: semantically close and phonologically close. -/
def applyRule3 (b : EvidenceBundle) (st : AggState) : AggState :=
  if rule3Path b then
    if b.formula.implied == Category.soundCarriesMeaning then
      { cls := some Category.semanticGloss, conf := max st.conf (qc 85),
        rationale := st.rationale ++
          ["rule 3: close meaning, close sound, sound-carries-meaning formula, confidence 0.85"] }
    else if b.context == ContextFit.supportsSemanticGloss then
      { cls := some Category.semanticGloss, conf := max st.conf (qc 80),
        rationale := st.rationale ++
          ["rule 3: close meaning, close sound, context supports gloss, confidence 0.80"] }
    else st
  else st

/-- Spec §4.4 rule 4: conservative fallback when nothing fired. -/
def applyRule4 (b : EvidenceBundle) (st : AggState) : AggState :=
  match st.cls with
  | some _ => st
  | none =>
    match b.formula.implied with
    | Category.uncertain =>
      { cls := some Category.semanticGloss, conf := qc 50,
        rationale := st.rationale ++
          ["rule 4: uncertain formula, default semantic gloss, confidence 0.5"] }
    | cat =>
      { cls := some cat, conf := qc 60,
        rationale := st.rationale ++
          ["rule 4: fall back to the formula category, confidence 0.6"] }

/-- Modelled from the spec: `aggregate(bundle) -> Verdict` (§4.4),
the decision cascade of the prompt module missing from the sources. -/
def aggregate (b : EvidenceBundle) : Verdict :=
  let st := applyRule4 b (applyRule3 b (applyRule2 b
    (applyRule1 b ⟨none, 0, []⟩)))
  { classification := st.cls.getD Category.semanticGloss,
    confidence := st.conf, rationale := st.rationale }

/-- A sequence-of-calls view of the aggregator: spec §4.4 says the
aggregator has no persistent state, so the only thing a call could
leave behind is its output; the history records it and the next call
must not read it. -/
def aggregateCall (history : List Verdict) (b : EvidenceBundle) :
    Verdict × List Verdict :=
  (aggregate b, history ++ [aggregate b])

/-! ### Result parsing (`src/agent/xungu_agent.py`) -/

/-- `needle` occurs as a contiguous substring of `hay`
(Python's `in`). -/
def containsSub (needle hay : List Char) : Bool :=
  hay.tails.any (fun t => needle.isPrefixOf t)

/-- `XunguAgent._extract_classification`. -/
def extractClassification (text : List Char) : String :=
  if containsSub "假借说明".data text || containsSub "假借".data text then
    "假借说明"
  else if containsSub "语义解释".data text || containsSub "语义".data text then
    "语义解释"
  else "不确定"

/-- One attempt of the `_extract_confidence` pattern
`0\.\d+|0\.\d+%|\d+%` at the current position: Python tries the
alternatives left to right (the middle alternative can only match where
the first does, so it is never reached), with greedy `\d+`.  Returns
(matched text, rest). -/
def confMatchAt (cs : List Char) : Option (List Char × List Char) :=
  match cs with
  | '0' :: '.' :: rest =>
    let ds := rest.takeWhile Char.isDigit
    if ds.isEmpty then
      -- first two alternatives fail; `\d+%` can still match the `0`
      confPercentAt cs
    else some ('0' :: '.' :: ds, rest.drop ds.length)
  | _ => confPercentAt cs
where
  /-- the `\d+%` alternative -/
  confPercentAt (cs : List Char) : Option (List Char × List Char) :=
    let ds := cs.takeWhile Char.isDigit
    if ds.isEmpty then none
    else
      match cs.drop ds.length with
      | '%' :: rest => some (ds ++ ['%'], rest)
      | _ => none

/-- `re.findall` of the confidence pattern: scan left to right,
non-overlapping. -/
def confFindAll : Nat → List Char → List (List Char)
  | 0, _ => []
  | _, [] => []
  | fuel + 1, cs =>
    match confMatchAt cs with
    | some (m, rest) => m :: confFindAll fuel rest
    | none =>
      match cs with
      | [] => []
      | _ :: rest => confFindAll fuel rest

/-- Decimal digits to a natural number. -/
def natOfDigits (ds : List Char) : Nat :=
  ds.foldl (fun a c => a * 10 + (c.toNat - 48)) 0

/-- `float(match.replace('%',''))` for the shapes the pattern can
produce. -/
def confValue (m : List Char) : ℚ :=
  match m with
  | '0' :: '.' :: ds => Rat.divInt (natOfDigits ds) ((10 : Int) ^ ds.length)
  | _ => (natOfDigits (m.takeWhile Char.isDigit) : ℚ)

/-- `min(max(conf, 0.0), 1.0)`. -/
def clamp01 (q : ℚ) : ℚ := min (max q 0) 1

/-- The per-match processing of `_extract_confidence`: percentages
above 1 are scaled down, then clamped into `[0,1]`
(`Rat.divInt q.num (q.den * 100)` is `q / 100`). -/
def processConf (m : List Char) : ℚ :=
  let conf := confValue m
  let conf := if 1 < conf then Rat.divInt conf.num (conf.den * 100)
    else conf
  clamp01 conf

/-- `XunguAgent._extract_confidence`. -/
def extractConfidence (text : List Char) : ℚ :=
  match confFindAll text.length text with
  | m :: _ => processConf m
  | [] =>
    if containsSub "高".data text && containsSub "置信".data text then qc 80
    else if containsSub "中".data text && containsSub "置信".data text then
      qc 60
    else if containsSub "低".data text && containsSub "置信".data text then
      qc 40
    else qc 50

/-- The fields `_parse_result` reads from a successfully extracted and
`json.loads`-parsed block (`json.loads` itself stays abstract; absent
keys are `none`). -/
structure ExtractedJson where
  classification : Option String
  confidence : Option ℚ
deriving DecidableEq

/-- The classification and confidence that `_parse_result` stores on
the `AnalysisResult`. -/
structure ParsedVerdict where
  classification : String
  confidence : ℚ
deriving DecidableEq

/-- The classification/confidence part of `XunguAgent._parse_result`:
the JSON path takes the parsed values with defaults (`不确定`, `0.5`)
and no clamping; the fallback path uses the keyword extractors. -/
def parseResult (jsonData : Option ExtractedJson) (output : List Char) :
    ParsedVerdict :=
  match jsonData with
  | some j =>
    { classification := j.classification.getD "不确定",
      confidence := j.confidence.getD (qc 50) }
  | none =>
    { classification := extractClassification output,
      confidence := extractConfidence output }

/-- Characters other than the two braces (the class `[^{}]`). -/
def notBrace (c : Char) : Bool := !(c == '{' || c == '}')

/-- The starred group + closing brace of the `_extract_json` pattern
`\{[^{}]*(?:\{[^{}]*\}[^{}]*)*\}` after the opening brace and first
`[^{}]*` were consumed; greedy and deterministic because every
alternative is brace-delimited.  Returns (consumed so far, rest). -/
def jbLoop : Nat → List Char → Nat → Option (Nat × List Char)
  | _, '}' :: rest, k => some (k + 1, rest)
  | fuel + 1, '{' :: rest, k =>
    let inner := rest.takeWhile notBrace
    (match rest.drop inner.length with
     | '}' :: r2 =>
       let after := r2.takeWhile notBrace
       jbLoop fuel (r2.drop after.length)
         (k + 1 + inner.length + 1 + after.length)
     | _ => none)
  | _, _, _ => none

/-- One attempt of the `_extract_json` pattern at the current
position. -/
def jsonBlockMatchAt (cs : List Char) : Option (List Char × List Char) :=
  match cs with
  | '{' :: rest =>
    let seg := rest.takeWhile notBrace
    (match jbLoop rest.length (rest.drop seg.length) (1 + seg.length) with
     | some (k, r) => some (cs.take k, r)
     | none => none)
  | _ => none

/-- `re.findall` of the `_extract_json` pattern. -/
def jsonFindAll : Nat → List Char → List (List Char)
  | 0, _ => []
  | _, [] => []
  | fuel + 1, cs =>
    match jsonBlockMatchAt cs with
    | some (m, rest) => m :: jsonFindAll fuel rest
    | none =>
      match cs with
      | [] => []
      | _ :: rest => jsonFindAll fuel rest

/-- The round-trip property of one index record: the bytes the serve
phase reads back are exactly one of the file's raw source lines, and
they re-parse to the record's headword. -/
def RoundOk (parse : List Nat → Option String) (file : List Nat)
    (r : IndexRec) : Prop :=
  readAt file r.offset r.length ∈ (pySegments file).map Prod.fst ∧
  parse (readAt file r.offset r.length) = some r.headword

/-- An index whose two reconstructions make `difflib`'s `ratio`
order-sensitive right at the 0.75 threshold:
`ratio("aba", "babba") = 3/4` but `ratio("babba", "aba") = 1/2` — the
tie between the length-2 common blocks `ab` and `ba` is broken
differently depending on argument order, so different block
decompositions are summed. -/
def asymTool : PhonologyToolM :=
  { index := [
      ("甲", { pan_shengmu := some "见", pan_yunbu := some "甲部",
               pan_recon := some "x", bs_recon := some "aba" }),
      ("乙", { pan_shengmu := some "影", pan_yunbu := some "乙部",
               pan_recon := some "y", bs_recon := some "babba" })],
    conv := none }


/-- A bundle on which only rule 1 can fire. -/
def c6OkBundle : EvidenceBundle :=
  ⟨SemanticRel.other, false, false,
    ⟨Category.phoneticLoan, true⟩, ContextFit.other⟩


/-- A direct-judge bundle on which rule 2 also fires. -/
def c6Bundle : EvidenceBundle :=
  ⟨SemanticRel.distant, true, true,
    ⟨Category.semanticGloss, true⟩, ContextFit.other⟩


/-- An extracted JSON block with an out-of-range confidence, as
produced by an agent output such as
`{"classification": "假借说明", "confidence": 5.0}`. -/
def badJson : ExtractedJson := ⟨some "假借说明", some 5⟩


/-- The loop returns the first priority-list name whose regex search
succeeds (and the degenerate `"未知"` if none does). -/
theorem identifyLoop_name (s : List Char) (names : List String) :
    (identifyLoop s names).pattern_name =
      (names.find? (fun n => matchesName n s)).getD "未知" := by
  induction names with
  | nil => rfl
  | cons n rest ih =>
    rw [identifyLoop]
    cases h : XUNSHI_PATTERNS.lookup n with
    | none =>
      have hm : matchesName n s = false := by simp [matchesName, h]
      simp [List.find?, hm, ih]
    | some cfg =>
      cases h2 : reSearch cfg.regex s with
      | none =>
        have hm : matchesName n s = false := by simp [matchesName, h, h2]
        simp [List.find?, hm, h2, ih]
      | some caps =>
        have hm : matchesName n s = true := by simp [matchesName, h, h2]
        simp [List.find?, hm, h2]

/-- `find?` returns the element at the least satisfying index. -/
theorem find?_first {α : Type} {p : α → Bool} :
    ∀ (l : List α) (i : Nat) (hi : i < l.length),
      p (l.get ⟨i, hi⟩) = true →
      ∃ k, ∃ hk : k < l.length, k ≤ i ∧ p (l.get ⟨k, hk⟩) = true ∧
        (∀ m, ∀ hm : m < l.length, m < k → p (l.get ⟨m, hm⟩) = false) ∧
        l.find? p = some (l.get ⟨k, hk⟩)
  | a :: t, i, hi, hpi => by
    cases hp : p a with
    | true =>
      exact ⟨0, Nat.succ_pos _, Nat.zero_le _, hp,
        fun m hm hlt => absurd hlt (Nat.not_lt_zero m),
        by simp [List.find?, hp]⟩
    | false =>
      match i, hi, hpi with
      | 0, _, hpi => exact absurd hpi (by simp [hp])
      | i + 1, hi, hpi =>
        obtain ⟨k, hk, hki, hpk, hmin, hfind⟩ :=
          find?_first t i (Nat.lt_of_succ_lt_succ hi) hpi
        refine ⟨k + 1, Nat.succ_lt_succ hk, Nat.succ_le_succ hki, hpk,
          ?_, by simp [List.find?, hp, hfind]⟩
        intro m hm hlt
        match m, hm, hlt with
        | 0, _, _ => exact hp
        | m + 1, hm, hlt =>
          exact hmin m (Nat.lt_of_succ_lt_succ hm) (Nat.lt_of_succ_lt_succ hlt)

/-- The 23 names in the priority list are pairwise distinct. -/
theorem priority_order_nodup : priority_order.Nodup := by decide

/-- C1.  FormulaMatcher priority ordering: for every input sentence and
indices `i < j` into the hand-ordered priority list, if rule `i`'s regex
search succeeds on the script-normalized, stripped sentence, then the
result's rule name is never rule `j`'s name; moreover the returned rule
name is exactly the first name in the priority list whose regex search
succeeds. -/
theorem formula_matcher_priority (s : List Char) (i j : Nat)
    (hij : i < j) (hj : j < priority_order.length)
    (hi : matchesName (priority_order.get ⟨i, Nat.lt_trans hij hj⟩)
      (pyStrip s) = true) :
    (identifyCore s).pattern_name ≠ priority_order.get ⟨j, hj⟩ ∧
    ∃ k, ∃ hk : k < priority_order.length, k ≤ i ∧
      matchesName (priority_order.get ⟨k, hk⟩) (pyStrip s) = true ∧
      (∀ m, ∀ hm : m < priority_order.length, m < k →
        matchesName (priority_order.get ⟨m, hm⟩) (pyStrip s) = false) ∧
      (identifyCore s).pattern_name = priority_order.get ⟨k, hk⟩ := by
  obtain ⟨k, hk, hki, hpk, hmin, hfind⟩ :=
    find?_first (p := fun n => matchesName n (pyStrip s))
      priority_order i (Nat.lt_trans hij hj) hi
  have hname : (identifyCore s).pattern_name =
      priority_order.get ⟨k, hk⟩ := by
    rw [identifyCore, identifyLoop_name, hfind]
    rfl
  refine ⟨?_, k, hk, hki, hpk, hmin, hname⟩
  rw [hname]
  intro heq
  have hfin : (⟨k, hk⟩ : Fin priority_order.length) = ⟨j, hj⟩ :=
    (List.Nodup.get_inj_iff priority_order_nodup).mp heq
  have hkj : k = j := congrArg Fin.val hfin
  omega

/-- Witness for C1 at a concrete input: on `"崇，读为终"` the top-priority
rule `读为` (index 0) matches, and the result is not the bottom-priority
rule `A也` (index 22) but the first matching rule. -/
theorem formula_matcher_priority_witness :
    matchesName (priority_order.get ⟨0, by decide⟩)
      (pyStrip "崇，读为终".data) = true ∧
    ((identifyCore "崇，读为终".data).pattern_name ≠
        priority_order.get ⟨22, by decide⟩ ∧
      ∃ k, ∃ hk : k < priority_order.length, k ≤ 0 ∧
        matchesName (priority_order.get ⟨k, hk⟩)
          (pyStrip "崇，读为终".data) = true ∧
        (∀ m, ∀ hm : m < priority_order.length, m < k →
          matchesName (priority_order.get ⟨m, hm⟩)
            (pyStrip "崇，读为终".data) = false) ∧
        (identifyCore "崇，读为终".data).pattern_name =
          priority_order.get ⟨k, hk⟩) :=
  ⟨by decide, formula_matcher_priority "崇，读为终".data 0 22 (by decide)
    (by decide) (by decide)⟩

/-- C8.  `identify("崇，终也")` is handled by the lowest-priority generic
fallback rule `A也`, with implied type 不确定 (Uncertain),
被释字 (target) `崇`, 释字 (gloss) `终`, `can_direct_judge = false` and
confidence 低 (Low).  The second conjunct shows the special-cased
secondary re-match of the fallback would extract the same pair on this
sentence (its captures here are non-empty, so the secondary path is not
taken, in line with the spec's note that it is reachable only when the
primary gloss capture is empty). -/
theorem a_ye_fallback_example :
    identifyCore "崇，终也".data =
      { pattern_name := "A也", char_a := ['崇'], char_b := ['终'],
        implied_type := "不确定", confidence := "低",
        can_direct_judge := false, source := "最基本训式A，B也" } ∧
    reSearch aYeSecondary "崇，终也".data = some [['崇'], ['终']] := by
  decide


/-- C3.  For every pair of characters that both resolve (the tool's own
criterion: neither query comes back with the `"未收录"` missing-data
sentinel), identical rhyme class (not the `"未知"` unknown sentinel, per
spec §4.2 step 1) forces `is_close = true` regardless of the initial
classes; and for every pair whatsoever, `is_close = true` is only ever
produced by rhyme-class identity or by the reconstruction-similarity
branch — never by initial-class identity alone. -/
theorem phonology_same_rhyme_close :
    (∀ (t : PhonologyToolM) (c1 c2 : String),
      (t.query c1).yunbu ≠ "未收录" → (t.query c2).yunbu ≠ "未收录" →
      (t.query c1).yunbu = (t.query c2).yunbu →
      (t.query c1).yunbu ≠ "未知" →
      (isPhoneticallyClose t c1 c2).is_close = true) ∧
    (∀ (t : PhonologyToolM) (c1 c2 : String),
      (isPhoneticallyClose t c1 c2).is_close = true →
      sameYunbu (t.query c1) (t.query c2) = true ∨
      simCutoff ≤ simScore (t.query c1) (t.query c2)) := by
  constructor
  · intro t c1 c2 h1 h2 heq hunk
    have hmc : missingCheck (t.query c1) (t.query c2) = false := by
      simp [missingCheck, h1, h2]
    have hunk2 : (t.query c2).yunbu ≠ "未知" := heq ▸ hunk
    have hsy : sameYunbu (t.query c1) (t.query c2) = true := by
      simp [sameYunbu, heq, hunk2]
    simp [isPhoneticallyClose, hmc, hsy]
  · intro t c1 c2 hclose
    by_cases hmc : missingCheck (t.query c1) (t.query c2) = true
    · simp [isPhoneticallyClose, hmc] at hclose
    · simp only [Bool.not_eq_true] at hmc
      simp only [isPhoneticallyClose, hmc, Bool.false_eq_true, if_false,
        Bool.or_eq_true, decide_eq_true_eq] at hclose
      exact hclose

/-- Witness for C3 on the tool's own mock table: 崇 and 終 share rhyme
class 東 with different initials, and are reported close. -/
theorem phonology_same_rhyme_close_witness :
    (isPhoneticallyClose mockTool "崇" "終").is_close = true ∧
    (sameYunbu (mockTool.query "崇") (mockTool.query "終") = true ∨
      simCutoff ≤ simScore (mockTool.query "崇") (mockTool.query "終")) :=
  ⟨phonology_same_rhyme_close.1 mockTool "崇" "終" (by decide) (by decide)
      (by decide) (by decide),
    phonology_same_rhyme_close.2 mockTool "崇" "終" (by decide)⟩

/-- C4.  If either character fails to resolve (its query returns the
`"未收录"` sentinel — in particular whenever it is absent from the
index), the comparison reports `is_close = false` and the explanation
explicitly begins with the data-missing marker `数据缺失`; absence of
data is never reported as closeness. -/
theorem phonology_missing_not_close (t : PhonologyToolM) (c1 c2 : String)
    (h : (t.query c1).yunbu = "未收录" ∨ (t.query c2).yunbu = "未收录") :
    (isPhoneticallyClose t c1 c2).is_close = false ∧
    "数据缺失".data <+: (isPhoneticallyClose t c1 c2).analysis.data := by
  have hmc : missingCheck (t.query c1) (t.query c2) = true := by
    rcases h with h | h <;> simp [missingCheck, h]
  refine ⟨by simp [isPhoneticallyClose, hmc], ?_⟩
  have hpre : "数据缺失".data <+: "数据缺失：未收录 '".data := by decide
  have hdata : ((isPhoneticallyClose t c1 c2).analysis).data =
      "数据缺失：未收录 '".data ++
        (c1.data ++ ("' 或 '".data ++ (c2.data ++ "'".data))) := by
    simp [isPhoneticallyClose, hmc, String.data_append]
  rw [hdata]
  exact hpre.trans (List.prefix_append _ _)

/-- Witness for C4: neither 甲 nor 乙 is in the empty index. -/
theorem phonology_missing_not_close_witness :
    (isPhoneticallyClose emptyPhonTool "甲" "乙").is_close = false ∧
    "数据缺失".data <+:
      (isPhoneticallyClose emptyPhonTool "甲" "乙").analysis.data :=
  phonology_missing_not_close emptyPhonTool "甲" "乙" (by decide)

set_option maxRecDepth 4000 in
/-- Counterexample to C10: the comparison is **not** symmetric — with
the `asymTool` index, `is_phonetically_close(甲, 乙).is_close = true`
while `is_phonetically_close(乙, 甲).is_close = false`, because
`difflib.SequenceMatcher.ratio` depends on argument order. -/
theorem phonology_swap_counterexample :
    (isPhoneticallyClose asymTool "甲" "乙").is_close = true ∧
    (isPhoneticallyClose asymTool "乙" "甲").is_close = false := by
  decide

/-- `missingCheck` is symmetric. -/
theorem missingCheck_comm (p1 p2 : PhonologyInfo) :
    missingCheck p1 p2 = missingCheck p2 p1 := by
  simp [missingCheck, Bool.or_comm]

/-- `sameYunbu` is symmetric. -/
theorem sameYunbu_comm (p1 p2 : PhonologyInfo) :
    sameYunbu p1 p2 = sameYunbu p2 p1 := by
  unfold sameYunbu
  by_cases h : p1.yunbu = p2.yunbu
  · rw [h]
  · have h1 : (p1.yunbu == p2.yunbu) = false := beq_eq_false_iff_ne.mpr h
    have h2 : (p2.yunbu == p1.yunbu) = false :=
      beq_eq_false_iff_ne.mpr (Ne.symm h)
    simp [h1, h2]

/-- `sameShengmu` is symmetric. -/
theorem sameShengmu_comm (p1 p2 : PhonologyInfo) :
    sameShengmu p1 p2 = sameShengmu p2 p1 := by
  unfold sameShengmu
  by_cases h : p1.shengmu = p2.shengmu
  · rw [h]
  · have h1 : (p1.shengmu == p2.shengmu) = false := beq_eq_false_iff_ne.mpr h
    have h2 : (p2.shengmu == p1.shengmu) = false :=
      beq_eq_false_iff_ne.mpr (Ne.symm h)
    simp [h1, h2]

/-- C10 amended.  The `same_yunbu` and `same_shengmu` fields of the
comparison are symmetric in the two characters, and whenever the
rhyme-class branch decides the outcome (`same_yunbu = some true`) the
`is_close` verdict agrees in both orders; only the
reconstruction-similarity branch can produce an order-dependent
`is_close` (see `phonology_swap_counterexample`). -/
theorem phonology_swap_amended (t : PhonologyToolM) (c1 c2 : String) :
    (isPhoneticallyClose t c1 c2).same_yunbu =
      (isPhoneticallyClose t c2 c1).same_yunbu ∧
    (isPhoneticallyClose t c1 c2).same_shengmu =
      (isPhoneticallyClose t c2 c1).same_shengmu ∧
    ((isPhoneticallyClose t c1 c2).same_yunbu = some true →
      (isPhoneticallyClose t c1 c2).is_close = true ∧
      (isPhoneticallyClose t c2 c1).is_close = true) := by
  have hmc := missingCheck_comm (t.query c1) (t.query c2)
  by_cases h : missingCheck (t.query c1) (t.query c2) = true
  · have h' : missingCheck (t.query c2) (t.query c1) = true := hmc ▸ h
    simp [isPhoneticallyClose, h, h']
  · simp only [Bool.not_eq_true] at h
    have h' : missingCheck (t.query c2) (t.query c1) = false := hmc ▸ h
    have hsy := sameYunbu_comm (t.query c1) (t.query c2)
    have hsm := sameShengmu_comm (t.query c1) (t.query c2)
    refine ⟨by simp [isPhoneticallyClose, h, h', hsy],
      by simp [isPhoneticallyClose, h, h', hsm], fun hy => ?_⟩
    have hval : (isPhoneticallyClose t c1 c2).same_yunbu =
        some (sameYunbu (t.query c1) (t.query c2)) := by
      simp [isPhoneticallyClose, h]
    rw [hval] at hy
    have hsy1 : sameYunbu (t.query c1) (t.query c2) = true :=
      Option.some.inj hy
    have hsy2 : sameYunbu (t.query c2) (t.query c1) = true := hsy ▸ hsy1
    exact ⟨by simp [isPhoneticallyClose, h, hsy1],
      by simp [isPhoneticallyClose, h', hsy2]⟩

/-- Witness for the amended C10 at the mock table. -/
theorem phonology_swap_amended_witness :
    (isPhoneticallyClose mockTool "崇" "終").same_yunbu =
      (isPhoneticallyClose mockTool "終" "崇").same_yunbu ∧
    (isPhoneticallyClose mockTool "崇" "終").same_shengmu =
      (isPhoneticallyClose mockTool "終" "崇").same_shengmu ∧
    ((isPhoneticallyClose mockTool "崇" "終").same_yunbu = some true →
      (isPhoneticallyClose mockTool "崇" "終").is_close = true ∧
      (isPhoneticallyClose mockTool "終" "崇").is_close = true) :=
  phonology_swap_amended mockTool "崇" "終"


/-! ### Round-trip lemmas (C2) -/

/-- `readline` consumes a prefix: raw bytes ++ rest = file. -/
theorem splitSeg_append : ∀ f : List Nat,
    (splitSeg f).1 ++ (splitSeg f).2.2 = f := by
  intro f
  induction f with
  | nil => rfl
  | cons b rest ih =>
    by_cases h13 : b = 13
    · subst h13
      match rest with
      | [] => rfl
      | b2 :: rest2 =>
        simp only [splitSeg]
        by_cases h10 : b2 = 10
        · subst h10; simp
        · simp [h10]
    · by_cases h10 : b = 10
      · subst h10; simp [splitSeg]
      · simp only [splitSeg, if_neg h13, if_neg h10]
        simpa using ih

/-- A non-empty file loses at least one byte per `readline`. -/
theorem splitSeg_len : ∀ (b : Nat) (rest : List Nat),
    (splitSeg (b :: rest)).2.2.length < (b :: rest).length := by
  intro b rest
  induction rest generalizing b with
  | nil =>
    by_cases h13 : b = 13
    · subst h13; simp [splitSeg]
    · by_cases h10 : b = 10
      · subst h10; simp [splitSeg]
      · simp [splitSeg, h13, h10]
  | cons b2 rest2 ih =>
    by_cases h13 : b = 13
    · subst h13
      simp only [splitSeg]
      by_cases h10 : b2 = 10
      · subst h10; simp; omega
      · simp [h10]
    · by_cases h10 : b = 10
      · subst h10; simp [splitSeg]
      · simp only [splitSeg, if_neg h13, if_neg h10]
        have := ih b2
        simpa using Nat.lt_trans this (Nat.lt_succ_self _)

/-- With enough fuel, the raw segments concatenate back to the file. -/
theorem pySegmentsF_join : ∀ (fuel : Nat) (f : List Nat),
    f.length ≤ fuel →
    ((pySegmentsF fuel f).map Prod.fst).flatten = f := by
  intro fuel
  induction fuel with
  | zero =>
    intro f hf
    have : f = [] := List.eq_nil_of_length_eq_zero (Nat.le_zero.mp hf)
    subst this; rfl
  | succ fuel ih =>
    intro f hf
    match f with
    | [] => rfl
    | b :: rest =>
      have hlen := splitSeg_len b rest
      have hle : (splitSeg (b :: rest)).2.2.length ≤ fuel := by
        have := Nat.lt_of_lt_of_le hlen hf
        omega
      simp only [pySegmentsF, List.map_cons, List.flatten_cons]
      rw [ih _ hle, splitSeg_append]

/-- The raw segments of a file concatenate back to the file. -/
theorem pySegments_join (f : List Nat) :
    ((pySegments f).map Prod.fst).flatten = f :=
  pySegmentsF_join f.length f (Nat.le_refl _)

/-- Without carriage returns the translated line equals the raw one. -/
theorem splitSeg_noCR (f : List Nat) (h : ¬ 13 ∈ f) :
    (splitSeg f).1 = (splitSeg f).2.1 := by
  induction f with
  | nil => rfl
  | cons b rest ih =>
    have hb : b ≠ 13 := fun hb => h (hb ▸ List.mem_cons_self b rest)
    by_cases h10 : b = 10
    · subst h10; simp [splitSeg]
    · simp only [splitSeg, if_neg hb, if_neg h10]
      have hrest : ¬ 13 ∈ rest := fun hr => h (List.mem_cons_of_mem b hr)
      simpa using ih hrest

/-- The rest of the file also contains no carriage return. -/
theorem splitSeg_noCR_rest (f : List Nat) (h : ¬ 13 ∈ f) :
    ¬ 13 ∈ (splitSeg f).2.2 := by
  intro hmem
  apply h
  have := splitSeg_append f
  rw [← this]
  exact List.mem_append_right _ hmem

/-- Without carriage returns every segment is raw = translated. -/
theorem pySegmentsF_noCR : ∀ (fuel : Nat) (f : List Nat), ¬ 13 ∈ f →
    ∀ p ∈ pySegmentsF fuel f, p.1 = p.2 := by
  intro fuel
  induction fuel with
  | zero => intro f _ p hp; simp [pySegmentsF] at hp
  | succ fuel ih =>
    intro f hf p hp
    match f with
    | [] => simp [pySegmentsF] at hp
    | b :: rest =>
      simp only [pySegmentsF, List.mem_cons] at hp
      rcases hp with hp | hp
      · rw [hp]
        exact (splitSeg_noCR _ hf).symm ▸ rfl
      · exact ih _ (splitSeg_noCR_rest _ hf) p hp

/-- Membership transfer through `bucketAdd`. -/
theorem bucketAdd_mem : ∀ (idx : List (Char × List IndexRec)) (c : Char)
    (r0 r : IndexRec), r ∈ allRecs (bucketAdd idx c r0) →
    r ∈ allRecs idx ∨ r = r0 := by
  intro idx c r0 r
  induction idx with
  | nil =>
    intro h
    simp [bucketAdd, allRecs] at h
    exact Or.inr h
  | cons p rest ih =>
    intro h
    match p with
    | (c', rs) =>
      by_cases hc : c' = c
      · simp only [bucketAdd, if_pos hc, allRecs, List.map_cons,
          List.flatten_cons, List.mem_append, List.mem_cons] at h ⊢
        rcases h with (h | h) | h
        · exact Or.inl (Or.inl h)
        · simp at h; exact Or.inr h
        · exact Or.inl (Or.inr h)
      · simp only [bucketAdd, if_neg hc, allRecs, List.map_cons,
          List.flatten_cons, List.mem_append] at h ⊢
        rcases h with h | h
        · exact Or.inl (Or.inl h)
        · rcases ih h with h' | h'
          · exact Or.inl (Or.inr h')
          · exact Or.inr h'

/-- Records of a bucket are records of the index. -/
theorem lookup_sub_allRecs : ∀ (idx : List (Char × List IndexRec))
    (c : Char) (rs : List IndexRec), idx.lookup c = some rs →
    ∀ r ∈ rs, r ∈ allRecs idx := by
  intro idx c rs
  induction idx with
  | nil => intro h; simp [List.lookup] at h
  | cons p rest ih =>
    intro h r hr
    match p with
    | (c', rs') =>
      cases hbeq : c == c' with
      | true =>
        have h2 : rs' = rs := by simpa [List.lookup, hbeq] using h
        subst h2
        simp only [allRecs, List.map_cons, List.flatten_cons,
          List.mem_append]
        exact Or.inl hr
      | false =>
        have h2 : List.lookup c rest = some rs := by
          simpa [List.lookup, hbeq] using h
        simp only [allRecs, List.map_cons, List.flatten_cons,
          List.mem_append]
        exact Or.inr (ih h2 r hr)

/-- The build-loop invariant: if the remaining segments are exactly the
file from byte `offset` on, all of them are raw = translated segments
of the file, and every already-accumulated record round-trips, then
every record of the finished index round-trips. -/
theorem buildGo_roundOk (parse : List Nat → Option String)
    (file : List Nat) :
    ∀ (segs : List (List Nat × List Nat)) (off : Nat)
      (acc : List (Char × List IndexRec)),
      (segs.map Prod.fst).flatten = file.drop off →
      (∀ p ∈ segs, p ∈ pySegments file) →
      (∀ p ∈ segs, p.1 = p.2) →
      (∀ r ∈ allRecs acc, RoundOk parse file r) →
      ∀ r ∈ allRecs (buildGo parse segs off acc), RoundOk parse file r := by
  intro segs
  induction segs with
  | nil =>
    intro off acc _ _ _ hacc r hr
    exact hacc r hr
  | cons p rest ih =>
    intro off acc hflat hmem hraw hacc r hr
    match p with
    | (raw, line) =>
      have hrl : raw = line := hraw (raw, line) (List.mem_cons_self _ _)
      have hdrop : file.drop off = line ++ (rest.map Prod.fst).flatten := by
        rw [← hflat]
        simp [hrl]
      have hflat' : (rest.map Prod.fst).flatten =
          file.drop (off + line.length) := by
        have h1 : file.drop (off + line.length) =
            (file.drop off).drop line.length := by
          rw [List.drop_drop]
        rw [h1, hdrop, List.drop_left]
      have hread : readAt file off line.length = line := by
        rw [readAt, hdrop, List.take_left]
      simp only [buildGo] at hr
      apply ih (off + line.length) _ hflat'
        (fun q hq => hmem q (List.mem_cons_of_mem _ hq))
        (fun q hq => hraw q (List.mem_cons_of_mem _ hq)) _ r hr
      intro r' hr'
      -- r' is in the accumulator extended by at most the new record
      unfold buildStep at hr'
      cases hparse : parse line with
      | none => rw [hparse] at hr'; exact hacc r' hr'
      | some hw =>
        rw [hparse] at hr'
        simp only [] at hr'
        cases hdata : hw.data with
        | nil => rw [hdata] at hr'; exact hacc r' hr'
        | cons c0 cs0 =>
          rw [hdata] at hr'
          simp only [] at hr'
          by_cases hhash : c0 = '#'
          · rw [if_pos hhash] at hr'
            exact hacc r' hr'
          · rw [if_neg hhash] at hr'
            rcases bucketAdd_mem acc c0 ⟨hw, off, line.length⟩ r' hr'
              with h' | h'
            · exact hacc r' h'
            · subst h'
              refine ⟨?_, ?_⟩
              · rw [hread]
                have : (raw, line) ∈ pySegments file :=
                  hmem (raw, line) (List.mem_cons_self _ _)
                rw [hrl] at this
                exact List.mem_map_of_mem Prod.fst this
              · rw [hread, hparse]

/-- C2 amended.  For every corpus whose line terminators contain no
carriage return (so text-mode translation is the identity) and every
parser, each record of the built index round-trips: seeking to its
`offset` and reading exactly `length` bytes returns precisely the raw
source line that produced the record, and re-parsing those bytes
returns the same headword; consequently, for every single-character
headword bucketed under `c`, the serve-time `lookup` output contains
that original source line verbatim. -/
theorem corpus_roundtrip (parse : List Nat → Option String)
    (file : List Nat) (hcr : ¬ 13 ∈ file) (c : Char)
    (rs : List IndexRec)
    (hrs : (buildIndex parse file).lookup c = some rs) :
    ∀ r ∈ rs,
      readAt file r.offset r.length ∈ (pySegments file).map Prod.fst ∧
      parse (readAt file r.offset r.length) = some r.headword ∧
      (r.headword.data.length = 1 →
        readAt file r.offset r.length ∈
          loaderQuery parse file (buildIndex parse file) c) := by
  intro r hr
  have hmem : r ∈ allRecs (buildIndex parse file) :=
    lookup_sub_allRecs _ c rs hrs r hr
  have hok : RoundOk parse file r :=
    buildGo_roundOk parse file (pySegments file) 0 []
      (by simpa using pySegments_join file)
      (fun p hp => hp)
      (pySegmentsF_noCR file.length file hcr)
      (by simp [allRecs]) r hmem
  refine ⟨hok.1, hok.2, fun hlen => ?_⟩
  unfold loaderQuery
  rw [hrs]
  apply List.mem_filterMap.mpr
  refine ⟨r, hr, ?_⟩
  rw [if_pos (by simp [hlen])]
  simp [hok.2]

/-- Witness for the amended C2 on the LF corpus: the record for 山 is
read back byte-identically, re-parses to 山, and appears in the
serve-time lookup output. -/
theorem corpus_roundtrip_witness :
    ¬ 13 ∈ lfFile ∧
    (buildIndex miniParse lfFile).lookup '山' =
      some [⟨"山", 0, 20⟩] ∧
    (readAt lfFile 0 20 ∈ (pySegments lfFile).map Prod.fst ∧
      miniParse (readAt lfFile 0 20) = some "山" ∧
      ((IndexRec.mk "山" 0 20).headword.data.length = 1 →
        readAt lfFile 0 20 ∈
          loaderQuery miniParse lfFile (buildIndex miniParse lfFile)
            '山')) :=
  ⟨by decide, by decide,
    corpus_roundtrip miniParse lfFile (by decide) '山' [⟨"山", 0, 20⟩]
      (by decide) ⟨"山", 0, 20⟩ (by decide)⟩

/-- Counterexample to C2 as stated (quantified over *every* corpus
file): on a CRLF corpus the text-mode byte accounting drifts.  The
third line's record (headword 火, present under bucket 火) gets offset
40/length 20, but the bytes at 40..60 are not the original source line
(they start two bytes early and lose the closing `}\r\n`), and the
serve-time lookup of 火 returns nothing at all: the record is not
reproduced. -/
theorem corpus_roundtrip_counterexample :
    (buildIndex miniParse crlfFile).lookup '火' =
      some [⟨"火", 40, 20⟩] ∧
    readAt crlfFile 40 20 ≠
      strBytes "\x7b\"headword\": \"火\"\x7d" ++ [13, 10] ∧
    readAt crlfFile 40 20 ∉ (pySegments crlfFile).map Prod.fst ∧
    loaderQuery miniParse crlfFile (buildIndex miniParse crlfFile) '火'
      = [] := by
  decide

/-! ### C5: missing index file at serve time -/

/-- C5 amended.  `TextualTool.load` with the index file missing raises
(models as `Except.error`) a message that names the missing index
(`索引文件不存在`) and directs the caller to run the build step
(`构建索引` — "build the index"), for any paths and any outcome the
underlying loader would have had. -/
theorem textual_load_missing_index (ok : Bool) (ip jp : String) :
    ∃ msg, textualLoad false ok ip jp = Except.error msg ∧
      "索引文件不存在".data <+: msg.data ∧
      "请先运行以下命令构建索引".data <:+: msg.data := by
  refine ⟨_, rfl, ?_, ?_⟩
  · rw [String.data_append]
    have hp : "索引文件不存在".data <+: "索引文件不存在: ".data := by
      decide
    exact hp.trans (List.prefix_append _ _)
  · rw [String.data_append, String.data_append]
    have h1 : "请先运行以下命令构建索引".data <:+: buildHintMsg.data := by
      decide
    have h2 : buildHintMsg.data <:+: ip.data ++ buildHintMsg.data :=
      (List.suffix_append _ _).isInfix
    have h3 : ip.data ++ buildHintMsg.data <:+:
        "索引文件不存在: ".data ++ (ip.data ++ buildHintMsg.data) :=
      (List.suffix_append _ _).isInfix
    exact (h1.trans h2).trans h3

/-- Counterexample to C5 as stated: the underlying
`DYHDCIndexLoader.query` — itself a serve-time lookup entry point — is
given a missing index file and silently returns the empty list: no
error is raised and no message is produced, contradicting "every
serve-time lookup call fails with an explicit error". -/
theorem loader_missing_index_counterexample :
    dyhdcLoaderQuery miniParse lfFile none '山' = [] := by
  decide

/-! ### C6/C7: the aggregation cascade (spec-modelled) -/

/-- If rule 2's conditions do not hold, rule 2 leaves the state
untouched. -/
theorem applyRule2_not_fires (b : EvidenceBundle) (st : AggState)
    (h : rule2Fires b = false) : applyRule2 b st = st := by
  unfold applyRule2
  cases hp : rule2Path b with
  | false => simp
  | true =>
    unfold rule2Fires at h
    rw [hp] at h
    simp only [Bool.true_and, Bool.or_eq_false_iff] at h
    simp [h.1, h.2]

/-- If rule 3's conditions do not hold, rule 3 leaves the state
untouched. -/
theorem applyRule3_not_fires (b : EvidenceBundle) (st : AggState)
    (h : rule3Fires b = false) : applyRule3 b st = st := by
  unfold applyRule3
  cases hp : rule3Path b with
  | false => simp
  | true =>
    unfold rule3Fires at h
    rw [hp] at h
    simp only [Bool.true_and, Bool.or_eq_false_iff] at h
    simp [h.1, h.2]

/-- C6 amended.  For a bundle whose formula signal has
`directJudge = true`, rule 1 sets classification to the formula's
implied category at confidence 0.9, and this is the returned verdict
*provided* neither rule 2 nor rule 3 fires afterwards; those later
rules may override classification and raise the confidence (see the
counterexample). -/
theorem aggregate_direct_judge (b : EvidenceBundle)
    (hdj : b.formula.directJudge = true)
    (h2 : rule2Fires b = false) (h3 : rule3Fires b = false) :
    (aggregate b).classification = b.formula.implied ∧
    (aggregate b).confidence = qc 90 := by
  unfold aggregate
  have e1 : applyRule1 b ⟨none, 0, []⟩ =
      ⟨some b.formula.implied, qc 90,
        ["rule 1: formula direct marker, confidence 0.9"]⟩ := by
    simp [applyRule1, hdj]
  rw [e1, applyRule2_not_fires b _ h2, applyRule3_not_fires b _ h3]
  simp [applyRule4]

/-- Witness for the amended C6. -/
theorem aggregate_direct_judge_witness :
    c6OkBundle.formula.directJudge = true ∧
    rule2Fires c6OkBundle = false ∧ rule3Fires c6OkBundle = false ∧
    ((aggregate c6OkBundle).classification =
        c6OkBundle.formula.implied ∧
      (aggregate c6OkBundle).confidence = qc 90) :=
  ⟨by decide, by decide, by decide,
    aggregate_direct_judge c6OkBundle (by decide) (by decide) (by decide)⟩

/-- Counterexample to C6 as stated: with `directJudge = true` but the
rule-2 conditions also met (semantically distant, phonologically
close, textual corroboration), the cascade overrides rule 1: the
verdict is PhoneticLoan at confidence 0.95, not the formula's implied
category at 0.9. -/
theorem aggregate_direct_judge_counterexample :
    c6Bundle.formula.directJudge = true ∧
    (aggregate c6Bundle).classification ≠ c6Bundle.formula.implied ∧
    (aggregate c6Bundle).confidence ≠ qc 90 ∧
    (aggregate c6Bundle).classification = Category.phoneticLoan ∧
    (aggregate c6Bundle).confidence = qc 95 := by
  decide

/-- C7.  The aggregator is a pure, stateless reduction of one
`EvidenceBundle`: its verdict does not depend on any call history, a
repeated call on the same bundle yields the identical verdict, and the
classification, confidence and rationale fields all agree between any
two calls on equal bundles. -/
theorem aggregate_stateless (h1 h2 : List Verdict) (b : EvidenceBundle) :
    (aggregateCall h1 b).1 = (aggregateCall h2 b).1 ∧
    (aggregateCall (aggregateCall h1 b).2 b).1 = (aggregateCall h1 b).1 ∧
    (aggregateCall h1 b).1.classification =
      (aggregateCall h2 b).1.classification ∧
    (aggregateCall h1 b).1.confidence =
      (aggregateCall h2 b).1.confidence ∧
    (aggregateCall h1 b).1.rationale =
      (aggregateCall h2 b).1.rationale :=
  ⟨rfl, rfl, rfl, rfl, rfl⟩

/-! ### C9: Verdict invariants of the result-parsing paths -/

/-- `clamp01` really clamps into `[0, 1]`. -/
theorem clamp01_mem (q : ℚ) : 0 ≤ clamp01 q ∧ clamp01 q ≤ 1 :=
  ⟨le_min (le_max_right _ _) zero_le_one, min_le_right _ _⟩

/-- C9 amended.  On the free-text fallback path the classification is
one of 假借说明, 语义解释, 不确定 and the confidence is clamped into
`[0,1]`; on the JSON path both fields are taken from the extracted
JSON as-is (with defaults `不确定` and `0.5`), without clamping. -/
theorem parse_result_invariants (output : List Char) :
    ((parseResult none output).classification = "假借说明" ∨
      (parseResult none output).classification = "语义解释" ∨
      (parseResult none output).classification = "不确定") ∧
    0 ≤ (parseResult none output).confidence ∧
    (parseResult none output).confidence ≤ 1 ∧
    ∀ j : ExtractedJson,
      (parseResult (some j) output).classification =
        j.classification.getD "不确定" ∧
      (parseResult (some j) output).confidence =
        j.confidence.getD (qc 50) := by
  refine ⟨?_, ?_, ?_, fun j => ⟨rfl, rfl⟩⟩
  · unfold parseResult extractClassification
    split_ifs <;> simp
  · unfold parseResult extractConfidence
    cases h : confFindAll output.length output with
    | cons m rest =>
      simp only []
      exact (clamp01_mem _).1
    | nil =>
      simp only []
      split_ifs <;> decide
  · unfold parseResult extractConfidence
    cases h : confFindAll output.length output with
    | cons m rest =>
      simp only []
      exact (clamp01_mem _).2
    | nil =>
      simp only []
      split_ifs <;> decide

/-- Counterexample to C9 as stated: on the fallback path (no JSON
block exists in `无法给出结论`), the classification is `不确定`, which
is outside {假借说明, 语义解释}; and on the JSON path an out-of-range
confidence is taken verbatim (5 > 1: no clamping). -/
theorem parse_result_counterexample :
    jsonFindAll "无法给出结论".data.length "无法给出结论".data = [] ∧
    (parseResult none "无法给出结论".data).classification = "不确定" ∧
    ("不确定" : String) ≠ "假借说明" ∧
    ("不确定" : String) ≠ "语义解释" ∧
    (parseResult (some badJson) "无法给出结论".data).confidence = 5 ∧
    ¬ ((parseResult (some badJson) "无法给出结论".data).confidence ≤ 1)
    := by
  decide

end Xungu
